import Mathlib

/-!
Shallow embedding of the M25PX16 SPI NOR flash driver
(`src/m25p16.c`, `src/flash_m25p16.c`, headers `src/m25p16.h` aka
`src/unnamed/part_000`, `src/m25px16.h`, `src/flash.h`).

The physical bus transport (the `SPI_ASSERT` / `SPI_TRANSMIT` /
`SPI_DEASSERT` macros, left as placeholders in the C source) is the
external collaborator; it is modelled as a state machine `Dev σ`:
`onAssert` drives chip-select low, `step` exchanges one byte
(full duplex: the argument is the byte driven by the host, the returned
`Nat` is the byte driven by the device), `onDeassert` drives chip-select
high.  Every chip-driver function is translated from the C body and, in
addition to threading the device state, returns the list of SPI events
it caused, in order, so that temporal claims about call sequences can be
stated as trace equations.
-/

/-- One event on the SPI bus: chip-select assertion, a full-duplex byte
exchange (`din` host → device, `dout` device → host), or chip-select
deassertion. -/
inductive Ev where
  | asrt : Ev
  | xmit (din dout : Nat) : Ev
  | deassert : Ev
deriving DecidableEq, Repr

/-- The bus transport collaborator together with the device behind it:
a state machine reacting to chip-select edges and byte exchanges. -/
structure Dev (σ : Type) where
  onAssert : σ → σ
  step : σ → Nat → σ × Nat
  onDeassert : σ → σ

/- Command opcodes, from the `#define CMD_*` table shared by
`src/m25p16.c` and the m25px16 variant driver. -/

def CMD_WRITE_ENABLE : Nat := 0x06
def CMD_WRITE_DISABLE : Nat := 0x04
def CMD_READ_IDENTIFICATION : Nat := 0x9F
def CMD_READ_STATUS_REGISTER : Nat := 0x05
def CMD_WRITE_STATUS_REGISTER : Nat := 0x01
def CMD_READ_DATA_BYTES : Nat := 0x03
def CMD_PAGE_PROGRAM : Nat := 0x02
def CMD_SECTOR_ERASE : Nat := 0xD8
def CMD_BULK_ERASE : Nat := 0xC7
def CMD_DEEP_POWER_DOWN : Nat := 0xB9
def CMD_RELEASE_FROM_DEEP_POWER_DOWN : Nat := 0xAB

/- The two opcodes only the extended (m25px16) variant has. -/

def CMD_WRITE_LOCK_REGISTER : Nat := 0xE5
def CMD_READ_LOCK_REGISTER : Nat := 0xE8

/- Geometry constants from `src/m25p16.h` (identical in `src/m25px16.h`). -/

def M25P16_PAGE_COUNT : Nat := 8192
def M25P16_PAGE_BYTE_SIZE : Nat := 256
def M25P16_SECTOR_COUNT : Nat := 32
def M25P16_SECTOR_BYTE_SIZE : Nat := 65536

/-- `M25P16_SREG_WRITE_IN_PROGRESS(SREG)` = `(SREG) & (1 << 0)`. -/
def M25P16_SREG_WRITE_IN_PROGRESS (sreg : Nat) : Nat := sreg &&& (1 <<< 0)

/-- `unsigned int` arithmetic in the façade is modulo `2^32`. -/
def UINT32_MOD : Nat := 2 ^ 32

/-- Identification record (`m25p16_identification_t`); the C struct
declares `uint8_t cfd_content[16]`; here the content bytes actually
stored by the read loop are kept as a list (the store into
`cfd_content[i]` on loop iteration `i` becomes element `i`). -/
structure m25p16_identification_t where
  manufacturer : Nat
  memory_type : Nat
  memory_capacity : Nat
  cfd_length : Nat
  cfd_content : List Nat
deriving DecidableEq, Repr

/-- Declared capacity of the `cfd_content` array: `uint8_t cfd_content[16]`. -/
def CFD_CONTENT_CAPACITY : Nat := 16

/-- A `for (i = 0; i < n; i++) buf[i] = SPI_TRANSMIT(0);` receive loop:
returns final device state, the received bytes in order, and the trace. -/
def spiReadLoop {σ : Type} (D : Dev σ) : Nat → σ → σ × List Nat × List Ev
  | 0, s => (s, [], [])
  | n + 1, s =>
    let p := D.step s 0
    let q := spiReadLoop D n p.1
    (q.1, p.2 :: q.2.1, Ev.xmit 0 p.2 :: q.2.2)

/-- A `for (i = 0; i < siz; i++) SPI_TRANSMIT(buf[i]);` transmit loop. -/
def spiWriteLoop {σ : Type} (D : Dev σ) : List Nat → σ → σ × List Ev
  | [], s => (s, [])
  | b :: bs, s =>
    let p := D.step s b
    let q := spiWriteLoop D bs p.1
    (q.1, Ev.xmit b p.2 :: q.2)

/-- `m25p16_write_enable` (src/m25p16.c). -/
def m25p16_write_enable {σ : Type} (D : Dev σ) (s : σ) : σ × List Ev :=
  let p := D.step (D.onAssert s) CMD_WRITE_ENABLE
  (D.onDeassert p.1, [Ev.asrt, Ev.xmit CMD_WRITE_ENABLE p.2, Ev.deassert])

/-- `m25p16_write_disable` (src/m25p16.c). -/
def m25p16_write_disable {σ : Type} (D : Dev σ) (s : σ) : σ × List Ev :=
  let p := D.step (D.onAssert s) CMD_WRITE_DISABLE
  (D.onDeassert p.1, [Ev.asrt, Ev.xmit CMD_WRITE_DISABLE p.2, Ev.deassert])

/-- `m25p16_read_identification` (src/m25p16.c): opcode, then
manufacturer, memory type, memory capacity, CFD length, then a receive
loop of `cfd_length` iterations storing `cfd_content[i]`. -/
def m25p16_read_identification {σ : Type} (D : Dev σ) (s : σ) :
    σ × m25p16_identification_t × List Ev :=
  let p0 := D.step (D.onAssert s) CMD_READ_IDENTIFICATION
  let p1 := D.step p0.1 0
  let p2 := D.step p1.1 0
  let p3 := D.step p2.1 0
  let p4 := D.step p3.1 0
  let q := spiReadLoop D p4.2 p4.1
  (D.onDeassert q.1,
   ⟨p1.2, p2.2, p3.2, p4.2, q.2.1⟩,
   [Ev.asrt, Ev.xmit CMD_READ_IDENTIFICATION p0.2, Ev.xmit 0 p1.2,
    Ev.xmit 0 p2.2, Ev.xmit 0 p3.2, Ev.xmit 0 p4.2] ++ q.2.2 ++ [Ev.deassert])

/-- `m25p16_read_status_register` (src/m25p16.c). -/
def m25p16_read_status_register {σ : Type} (D : Dev σ) (s : σ) :
    σ × Nat × List Ev :=
  let p0 := D.step (D.onAssert s) CMD_READ_STATUS_REGISTER
  let p1 := D.step p0.1 0
  (D.onDeassert p1.1, p1.2,
   [Ev.asrt, Ev.xmit CMD_READ_STATUS_REGISTER p0.2, Ev.xmit 0 p1.2,
    Ev.deassert])

/-- `m25p16_write_status_register` (src/m25p16.c). -/
def m25p16_write_status_register {σ : Type} (D : Dev σ) (s : σ) (sreg : Nat) :
    σ × List Ev :=
  let p0 := D.step (D.onAssert s) CMD_WRITE_STATUS_REGISTER
  let p1 := D.step p0.1 sreg
  (D.onDeassert p1.1,
   [Ev.asrt, Ev.xmit CMD_WRITE_STATUS_REGISTER p0.2, Ev.xmit sreg p1.2,
    Ev.deassert])

/-- `m25p16_read_data_bytes` (src/m25p16.c): opcode, three address bytes
most-significant-first (the low 8 bits of `addr>>16`, `addr>>8`, `addr`
are what the byte-wide bus carries), then a receive loop of `siz`
iterations filling `buf`. -/
def m25p16_read_data_bytes {σ : Type} (D : Dev σ) (s : σ)
    (addr : Nat) (siz : Nat) : σ × List Nat × List Ev :=
  let p0 := D.step (D.onAssert s) CMD_READ_DATA_BYTES
  let p1 := D.step p0.1 (addr / 65536 % 256)
  let p2 := D.step p1.1 (addr / 256 % 256)
  let p3 := D.step p2.1 (addr % 256)
  let q := spiReadLoop D siz p3.1
  (D.onDeassert q.1, q.2.1,
   [Ev.asrt, Ev.xmit CMD_READ_DATA_BYTES p0.2,
    Ev.xmit (addr / 65536 % 256) p1.2, Ev.xmit (addr / 256 % 256) p2.2,
    Ev.xmit (addr % 256) p3.2] ++ q.2.2 ++ [Ev.deassert])

/-- `m25p16_page_program` (src/m25p16.c): opcode, three address bytes
most-significant-first, then a transmit loop sending `buf[0..siz)`. -/
def m25p16_page_program {σ : Type} (D : Dev σ) (s : σ)
    (addr : Nat) (buf : List Nat) (siz : Nat) : σ × List Ev :=
  let p0 := D.step (D.onAssert s) CMD_PAGE_PROGRAM
  let p1 := D.step p0.1 (addr / 65536 % 256)
  let p2 := D.step p1.1 (addr / 256 % 256)
  let p3 := D.step p2.1 (addr % 256)
  let q := spiWriteLoop D (buf.take siz) p3.1
  (D.onDeassert q.1,
   [Ev.asrt, Ev.xmit CMD_PAGE_PROGRAM p0.2,
    Ev.xmit (addr / 65536 % 256) p1.2, Ev.xmit (addr / 256 % 256) p2.2,
    Ev.xmit (addr % 256) p3.2] ++ q.2 ++ [Ev.deassert])

/-- `m25p16_sector_erase` (src/m25p16.c): opcode then three address
bytes most-significant-first. -/
def m25p16_sector_erase {σ : Type} (D : Dev σ) (s : σ) (addr : Nat) :
    σ × List Ev :=
  let p0 := D.step (D.onAssert s) CMD_SECTOR_ERASE
  let p1 := D.step p0.1 (addr / 65536 % 256)
  let p2 := D.step p1.1 (addr / 256 % 256)
  let p3 := D.step p2.1 (addr % 256)
  (D.onDeassert p3.1,
   [Ev.asrt, Ev.xmit CMD_SECTOR_ERASE p0.2,
    Ev.xmit (addr / 65536 % 256) p1.2, Ev.xmit (addr / 256 % 256) p2.2,
    Ev.xmit (addr % 256) p3.2, Ev.deassert])

/-- `m25p16_bulk_erase` (src/m25p16.c). -/
def m25p16_bulk_erase {σ : Type} (D : Dev σ) (s : σ) : σ × List Ev :=
  let p := D.step (D.onAssert s) CMD_BULK_ERASE
  (D.onDeassert p.1, [Ev.asrt, Ev.xmit CMD_BULK_ERASE p.2, Ev.deassert])

/-- `m25p16_deep_power_down` (src/m25p16.c). -/
def m25p16_deep_power_down {σ : Type} (D : Dev σ) (s : σ) : σ × List Ev :=
  let p := D.step (D.onAssert s) CMD_DEEP_POWER_DOWN
  (D.onDeassert p.1, [Ev.asrt, Ev.xmit CMD_DEEP_POWER_DOWN p.2, Ev.deassert])

/-- `m25p16_release_from_deep_power_down` (src/m25p16.c). -/
def m25p16_release_from_deep_power_down {σ : Type} (D : Dev σ) (s : σ) :
    σ × List Ev :=
  let p := D.step (D.onAssert s) CMD_RELEASE_FROM_DEEP_POWER_DOWN
  (D.onDeassert p.1,
   [Ev.asrt, Ev.xmit CMD_RELEASE_FROM_DEEP_POWER_DOWN p.2, Ev.deassert])

/-- `m25px16_write_lock_register` (m25px16 variant driver): opcode,
three address bytes most-significant-first, one data byte. -/
def m25px16_write_lock_register {σ : Type} (D : Dev σ) (s : σ)
    (addr lockreg : Nat) : σ × List Ev :=
  let p0 := D.step (D.onAssert s) CMD_WRITE_LOCK_REGISTER
  let p1 := D.step p0.1 (addr / 65536 % 256)
  let p2 := D.step p1.1 (addr / 256 % 256)
  let p3 := D.step p2.1 (addr % 256)
  let p4 := D.step p3.1 lockreg
  (D.onDeassert p4.1,
   [Ev.asrt, Ev.xmit CMD_WRITE_LOCK_REGISTER p0.2,
    Ev.xmit (addr / 65536 % 256) p1.2, Ev.xmit (addr / 256 % 256) p2.2,
    Ev.xmit (addr % 256) p3.2, Ev.xmit lockreg p4.2, Ev.deassert])

/-- `m25px16_read_lock_register` (m25px16 variant driver): opcode,
three address bytes most-significant-first, one byte read back. -/
def m25px16_read_lock_register {σ : Type} (D : Dev σ) (s : σ)
    (addr : Nat) : σ × Nat × List Ev :=
  let p0 := D.step (D.onAssert s) CMD_READ_LOCK_REGISTER
  let p1 := D.step p0.1 (addr / 65536 % 256)
  let p2 := D.step p1.1 (addr / 256 % 256)
  let p3 := D.step p2.1 (addr % 256)
  let p4 := D.step p3.1 0
  (D.onDeassert p4.1, p4.2,
   [Ev.asrt, Ev.xmit CMD_READ_LOCK_REGISTER p0.2,
    Ev.xmit (addr / 65536 % 256) p1.2, Ev.xmit (addr / 256 % 256) p2.2,
    Ev.xmit (addr % 256) p3.2, Ev.xmit 0 p4.2, Ev.deassert])

/-- The façade's `do { m25p16_read_status_register(&sreg); } while
(M25P16_SREG_WRITE_IN_PROGRESS(sreg));` busy-poll.  The C loop is
unbounded; `fuel` bounds the number of polls in the embedding and
`none` means WIP never cleared within `fuel` polls (the C code would
still be looping).  On success the returned list holds every status
byte polled, in order. -/
def pollWip {σ : Type} (D : Dev σ) : Nat → σ → Option (σ × List Nat × List Ev)
  | 0, _ => none
  | fuel + 1, s =>
    let p := m25p16_read_status_register D s
    if M25P16_SREG_WRITE_IN_PROGRESS p.2.1 = 0 then
      some (p.1, [p.2.1], p.2.2)
    else
      match pollWip D fuel p.1 with
      | none => none
      | some q => some (q.1, p.2.1 :: q.2.1, p.2.2 ++ q.2.2)

/-- `flash_sector_erase` (src/flash_m25p16.c): write enable, sector
erase at `M25P16_SECTOR_BYTE_SIZE * sector` (C `unsigned int`
multiplication, hence mod `2^32`), poll WIP, write disable, return 0. -/
def flash_sector_erase {σ : Type} (D : Dev σ) (fuel : Nat) (s : σ)
    (sector : Nat) : Option (σ × Int × List Ev) :=
  let addr := M25P16_SECTOR_BYTE_SIZE * sector % UINT32_MOD
  let we := m25p16_write_enable D s
  let se := m25p16_sector_erase D we.1 addr
  match pollWip D fuel se.1 with
  | none => none
  | some q =>
    let wd := m25p16_write_disable D q.1
    some (wd.1, 0, we.2 ++ se.2 ++ q.2.2 ++ wd.2)

/-- `flash_page_write` (src/flash_m25p16.c): returns -1 immediately if
`M25P16_PAGE_BYTE_SIZE < siz`; otherwise write enable, page program at
`M25P16_PAGE_BYTE_SIZE * page`, poll WIP, write disable, return 0. -/
def flash_page_write {σ : Type} (D : Dev σ) (fuel : Nat) (s : σ)
    (page : Nat) (buf : List Nat) (siz : Nat) : Option (σ × Int × List Ev) :=
  let addr := M25P16_PAGE_BYTE_SIZE * page % UINT32_MOD
  if M25P16_PAGE_BYTE_SIZE < siz then some (s, -1, [])
  else
    let we := m25p16_write_enable D s
    let pp := m25p16_page_program D we.1 addr buf siz
    match pollWip D fuel pp.1 with
    | none => none
    | some q =>
      let wd := m25p16_write_disable D q.1
      some (wd.1, 0, we.2 ++ pp.2 ++ q.2.2 ++ wd.2)

/-- `flash_page_read` (src/flash_m25p16.c): returns -1 immediately if
`M25P16_PAGE_BYTE_SIZE < siz`; otherwise a single
`m25p16_read_data_bytes` at `M25P16_PAGE_BYTE_SIZE * page`, returning
the bytes read into `buf` and 0. -/
def flash_page_read {σ : Type} (D : Dev σ) (s : σ)
    (page : Nat) (siz : Nat) : σ × Int × List Nat × List Ev :=
  let addr := M25P16_PAGE_BYTE_SIZE * page % UINT32_MOD
  if M25P16_PAGE_BYTE_SIZE < siz then (s, -1, [], [])
  else
    let rd := m25p16_read_data_bytes D s addr siz
    (rd.1, 0, rd.2.1, rd.2.2)

/-!
Transport test double for the round-trip property: an in-memory byte
array honoring erase/program semantics (program only clears bits 1 → 0;
erase sets all bits of a sector to 1).  The double decodes the byte
stream the driver sends: an opcode after chip-select assertion, then
three address bytes most-significant-first, then data.  It completes
program/erase cycles instantly, so the polled status byte is always 0
(WIP clear).
-/

/-- Decoder phase of the memory-backed device double. -/
inductive DevPhase where
  | idle
  | awaitOp
  | rdAddr (bs : List Nat)
  | rdData (a : Nat)
  | pgAddr (bs : List Nat)
  | pgData (a : Nat)
  | seAddr (bs : List Nat)
  | sePend (a : Nat)
  | status
  | other
deriving DecidableEq, Repr

/-- Memory-backed device double: flat byte array (as a function on
24-bit addresses) plus the decoder phase. -/
structure MemDev where
  mem : Nat → Nat
  phase : DevPhase

/-- Reassemble a 24-bit address from three bytes, most significant
first, as the device latches them off the bus. -/
def addr24 (bs : List Nat) : Nat :=
  match bs with
  | [b2, b1, b0] => (b2 % 256 * 65536 + b1 % 256 * 256 + b0 % 256) % 2 ^ 24
  | _ => 0

/-- Pointwise update of the byte array. -/
def memUpdate (m : Nat → Nat) (a v : Nat) : Nat → Nat :=
  fun x => if x = a then v else m x

/-- Erase semantics: every byte of the sector containing `a` becomes 0xFF. -/
def eraseSector (m : Nat → Nat) (a : Nat) : Nat → Nat :=
  fun x => if x / M25P16_SECTOR_BYTE_SIZE = a / M25P16_SECTOR_BYTE_SIZE then 255 else m x

/-- One byte exchange seen by the memory double.  Program semantics:
the stored byte is `old &&& new` (bits only cleared, 1 → 0). -/
def memStep (d : MemDev) (b : Nat) : MemDev × Nat :=
  match d.phase with
  | .idle => (d, 0)
  | .awaitOp =>
    if b = CMD_READ_DATA_BYTES then ({ d with phase := .rdAddr [] }, 0)
    else if b = CMD_PAGE_PROGRAM then ({ d with phase := .pgAddr [] }, 0)
    else if b = CMD_SECTOR_ERASE then ({ d with phase := .seAddr [] }, 0)
    else if b = CMD_READ_STATUS_REGISTER then ({ d with phase := .status }, 0)
    else ({ d with phase := .other }, 0)
  | .rdAddr bs =>
    if bs.length = 2 then ({ d with phase := .rdData (addr24 (bs ++ [b])) }, 0)
    else ({ d with phase := .rdAddr (bs ++ [b]) }, 0)
  | .rdData a => ({ d with phase := .rdData ((a + 1) % 2 ^ 24) }, d.mem a)
  | .pgAddr bs =>
    if bs.length = 2 then ({ d with phase := .pgData (addr24 (bs ++ [b])) }, 0)
    else ({ d with phase := .pgAddr (bs ++ [b]) }, 0)
  | .pgData a =>
    ({ mem := memUpdate d.mem a (d.mem a &&& (b % 256)),
       phase := .pgData ((a + 1) % 2 ^ 24) }, 0)
  | .seAddr bs =>
    if bs.length = 2 then ({ d with phase := .sePend (addr24 (bs ++ [b])) }, 0)
    else ({ d with phase := .seAddr (bs ++ [b]) }, 0)
  | .sePend _ => (d, 0)
  | .status => (d, 0)
  | .other => (d, 0)

/-- Chip-select assertion starts decoding a fresh command. -/
def memAssert (d : MemDev) : MemDev := { d with phase := .awaitOp }

/-- Chip-select deassertion: a latched sector erase is committed here
(the real chip starts its erase cycle on deassert); everything else
just returns the decoder to idle. -/
def memDeassert (d : MemDev) : MemDev :=
  match d.phase with
  | .sePend a => { mem := eraseSector d.mem a, phase := .idle }
  | _ => { d with phase := .idle }

/-- The memory-backed transport double packaged as a `Dev`. -/
def memDev : Dev MemDev := ⟨memAssert, memStep, memDeassert⟩

/-- A fully erased flash: every byte 0xFF, decoder idle. -/
def erasedDev : MemDev := ⟨fun _ => 255, .idle⟩

/-- Trivial transport double: ignores everything and answers 0 to every
byte exchange (in particular the polled status byte is 0, WIP clear). -/
def zeroDev : Dev Unit := ⟨fun _ => (), fun _ _ => ((), 0), fun _ => ()⟩

/-- Final memory after the program loop: byte `i` of `buf` is ANDed
into address `a + i` (addresses taken mod `2^24` as the double does). -/
def pgMem (m : Nat → Nat) (a : Nat) : List Nat → (Nat → Nat)
  | [] => m
  | b :: bs => pgMem (memUpdate m a (m a &&& (b % 256))) ((a + 1) % 2 ^ 24) bs

/-!  General trace lemmas.  -/

/-- An event that is a byte exchange (not a chip-select edge). -/
def isXmit (e : Ev) : Prop := ∃ a b, e = Ev.xmit a b

/-- A trace that is exactly one scoped bus acquisition: one assert
first, one deassert last, only byte exchanges in between. -/
def scopedOnce (tr : List Ev) : Prop :=
  ∃ mid, tr = Ev.asrt :: (mid ++ [Ev.deassert]) ∧ ∀ e ∈ mid, isXmit e

/-- First byte placed on the bus in a trace, skipping chip-select edges. -/
def firstOp : List Ev → Option Nat
  | [] => none
  | Ev.xmit d _ :: _ => some d
  | _ :: rest => firstOp rest

theorem spiReadLoop_trace {σ : Type} (D : Dev σ) (n : Nat) (s : σ) :
    (spiReadLoop D n s).2.2 = (spiReadLoop D n s).2.1.map (fun b => Ev.xmit 0 b) := by
  induction n generalizing s with
  | zero => simp [spiReadLoop]
  | succ n ih => simp [spiReadLoop, ih]

theorem spiReadLoop_length {σ : Type} (D : Dev σ) (n : Nat) (s : σ) :
    (spiReadLoop D n s).2.1.length = n := by
  induction n generalizing s with
  | zero => simp [spiReadLoop]
  | succ n ih => simp [spiReadLoop, ih]

theorem spiReadLoop_xmit {σ : Type} (D : Dev σ) (n : Nat) (s : σ) :
    ∀ e ∈ (spiReadLoop D n s).2.2, isXmit e := by
  induction n generalizing s with
  | zero => simp [spiReadLoop]
  | succ n ih =>
    intro e he
    simp only [spiReadLoop, List.mem_cons] at he
    rcases he with h | h
    · exact ⟨0, _, h⟩
    · exact ih _ e h

theorem spiWriteLoop_xmit {σ : Type} (D : Dev σ) (bs : List Nat) (s : σ) :
    ∀ e ∈ (spiWriteLoop D bs s).2, isXmit e := by
  induction bs generalizing s with
  | nil => simp [spiWriteLoop]
  | cons b bs ih =>
    intro e he
    simp only [spiWriteLoop, List.mem_cons] at he
    rcases he with h | h
    · exact ⟨b, _, h⟩
    · exact ih _ e h

/-!  The busy-poll as a relation on traces.  -/

/-- `PollTrace D s s' regs tr` holds when `tr` is exactly the trace of
one or more consecutive `m25p16_read_status_register` calls starting in
device state `s` and ending in `s'`, whose returned status bytes are
`regs` in order, every byte before the last having WIP set and the last
having WIP clear — the shape of the façade's `do … while (WIP)` poll. -/
inductive PollTrace {σ : Type} (D : Dev σ) : σ → σ → List Nat → List Ev → Prop
  | last (s s1 : σ) (sreg : Nat) (tr : List Ev) :
      m25p16_read_status_register D s = (s1, sreg, tr) →
      M25P16_SREG_WRITE_IN_PROGRESS sreg = 0 →
      PollTrace D s s1 [sreg] tr
  | busy (s s1 s2 : σ) (sreg : Nat) (tr tr2 : List Ev) (regs : List Nat) :
      m25p16_read_status_register D s = (s1, sreg, tr) →
      M25P16_SREG_WRITE_IN_PROGRESS sreg ≠ 0 →
      PollTrace D s1 s2 regs tr2 →
      PollTrace D s s2 (sreg :: regs) (tr ++ tr2)

/-- A successful `pollWip` is exactly a `PollTrace`. -/
theorem pollWip_spec {σ : Type} (D : Dev σ) (fuel : Nat) (s s' : σ)
    (regs : List Nat) (tr : List Ev)
    (h : pollWip D fuel s = some (s', regs, tr)) :
    PollTrace D s s' regs tr := by
  induction fuel generalizing s s' regs tr with
  | zero => simp [pollWip] at h
  | succ fuel ih =>
    rcases hr : m25p16_read_status_register D s with ⟨s1, sreg, tr1⟩
    simp only [pollWip, hr] at h
    by_cases hw : M25P16_SREG_WRITE_IN_PROGRESS sreg = 0
    · simp only [hw, if_true, Option.some.injEq, Prod.mk.injEq] at h
      obtain ⟨h1, h2, h3⟩ := h
      subst h1; subst h2; subst h3
      exact PollTrace.last s s1 sreg tr1 hr hw
    · simp only [if_neg hw] at h
      rcases hp : pollWip D fuel s1 with _ | ⟨s2, regs2, tr2⟩
      · rw [hp] at h; simp at h
      · rw [hp] at h
        simp only [Option.some.injEq, Prod.mk.injEq] at h
        obtain ⟨h1, h2, h3⟩ := h
        subst h1; subst h2; subst h3
        exact PollTrace.busy s s1 s2 sreg tr1 tr2 regs2 hr hw (ih s1 s2 regs2 tr2 hp)

/-- Decomposition of a completed `flash_sector_erase`: its trace is
exactly write-enable, then sector-erase at the computed address, then
the WIP poll, then write-disable, and the returned value is 0. -/
theorem flash_sector_erase_decomp {σ : Type} (D : Dev σ) (fuel : Nat)
    (s : σ) (sector : Nat) (s' : σ) (r : Int) (tr : List Ev)
    (h : flash_sector_erase D fuel s sector = some (s', r, tr)) :
    ∃ s1 trWE s2 trSE s3 regs trP s4 trWD,
      m25p16_write_enable D s = (s1, trWE) ∧
      m25p16_sector_erase D s1 (M25P16_SECTOR_BYTE_SIZE * sector % UINT32_MOD)
        = (s2, trSE) ∧
      PollTrace D s2 s3 regs trP ∧
      m25p16_write_disable D s3 = (s4, trWD) ∧
      s' = s4 ∧ r = 0 ∧ tr = trWE ++ trSE ++ trP ++ trWD := by
  rcases hWE : m25p16_write_enable D s with ⟨s1, trWE⟩
  rcases hSE : m25p16_sector_erase D s1
      (M25P16_SECTOR_BYTE_SIZE * sector % UINT32_MOD) with ⟨s2, trSE⟩
  simp only [flash_sector_erase, hWE, hSE] at h
  rcases hp : pollWip D fuel s2 with _ | ⟨s3, regs, trP⟩
  · rw [hp] at h; simp at h
  · rw [hp] at h
    rcases hWD : m25p16_write_disable D s3 with ⟨s4, trWD⟩
    simp only [hWD, Option.some.injEq, Prod.mk.injEq] at h
    obtain ⟨h1, h2, h3⟩ := h
    refine ⟨s1, trWE, s2, trSE, s3, regs, trP, s4, trWD, ?_, ?_,
      pollWip_spec D fuel s2 s3 regs trP hp, ?_, h1.symm, h2.symm, h3.symm⟩
    all_goals first | rfl | exact hWE | exact hSE | exact hWD

/-- Decomposition of a completed in-size `flash_page_write`: its trace
is exactly write-enable, then page-program of `buf[0..siz)` at the
computed address, then the WIP poll, then write-disable, returning 0. -/
theorem flash_page_write_decomp {σ : Type} (D : Dev σ) (fuel : Nat)
    (s : σ) (page : Nat) (buf : List Nat) (siz : Nat) (s' : σ) (r : Int)
    (tr : List Ev) (hs : siz ≤ M25P16_PAGE_BYTE_SIZE)
    (h : flash_page_write D fuel s page buf siz = some (s', r, tr)) :
    ∃ s1 trWE s2 trPP s3 regs trP s4 trWD,
      m25p16_write_enable D s = (s1, trWE) ∧
      m25p16_page_program D s1 (M25P16_PAGE_BYTE_SIZE * page % UINT32_MOD)
        buf siz = (s2, trPP) ∧
      PollTrace D s2 s3 regs trP ∧
      m25p16_write_disable D s3 = (s4, trWD) ∧
      s' = s4 ∧ r = 0 ∧ tr = trWE ++ trPP ++ trP ++ trWD := by
  rcases hWE : m25p16_write_enable D s with ⟨s1, trWE⟩
  rcases hPP : m25p16_page_program D s1
      (M25P16_PAGE_BYTE_SIZE * page % UINT32_MOD) buf siz with ⟨s2, trPP⟩
  have hns : ¬ (M25P16_PAGE_BYTE_SIZE < siz) := not_lt.mpr hs
  simp only [flash_page_write, hWE, hPP, if_neg hns] at h
  rcases hp : pollWip D fuel s2 with _ | ⟨s3, regs, trP⟩
  · rw [hp] at h; simp at h
  · rw [hp] at h
    rcases hWD : m25p16_write_disable D s3 with ⟨s4, trWD⟩
    simp only [hWD, Option.some.injEq, Prod.mk.injEq] at h
    obtain ⟨h1, h2, h3⟩ := h
    refine ⟨s1, trWE, s2, trPP, s3, regs, trP, s4, trWD, ?_, ?_,
      pollWip_spec D fuel s2 s3 regs trP hp, ?_, h1.symm, h2.symm, h3.symm⟩
    all_goals first | rfl | exact hWE | exact hPP | exact hWD

/-!  Computation lemmas for the memory-backed double.  -/

/-- The three address bytes the driver sends reassemble to the address. -/
theorem addr24_decomp (x : Nat) (hx : x < 2 ^ 24) :
    addr24 [x / 65536 % 256, x / 256 % 256, x % 256] = x := by
  simp only [addr24]
  omega

theorem memDev_write_enable (d : MemDev) :
    m25p16_write_enable memDev d =
      (⟨d.mem, DevPhase.idle⟩, [Ev.asrt, Ev.xmit CMD_WRITE_ENABLE 0, Ev.deassert]) := by
  rfl

theorem memDev_write_disable (d : MemDev) :
    m25p16_write_disable memDev d =
      (⟨d.mem, DevPhase.idle⟩, [Ev.asrt, Ev.xmit CMD_WRITE_DISABLE 0, Ev.deassert]) := by
  rfl

theorem memDev_read_status (d : MemDev) :
    m25p16_read_status_register memDev d =
      (⟨d.mem, DevPhase.idle⟩, 0,
       [Ev.asrt, Ev.xmit CMD_READ_STATUS_REGISTER 0, Ev.xmit 0 0, Ev.deassert]) := by
  rfl

/-- The double completes cycles instantly: the first status poll reads
0 (WIP clear), so one unit of fuel always suffices. -/
theorem memDev_pollWip (fuel : Nat) (d : MemDev) :
    pollWip memDev (fuel + 1) d =
      some (⟨d.mem, DevPhase.idle⟩, [0],
        [Ev.asrt, Ev.xmit CMD_READ_STATUS_REGISTER 0, Ev.xmit 0 0, Ev.deassert]) := by
  simp [pollWip, memDev_read_status, M25P16_SREG_WRITE_IN_PROGRESS]

/-- Running the transmit loop while the double is latching program data
ANDs each byte into memory in sequence. -/
theorem spiWriteLoop_pg (bs : List Nat) (m : Nat → Nat) (a : Nat) :
    ∃ a', (spiWriteLoop memDev bs ⟨m, DevPhase.pgData a⟩).1 =
      ⟨pgMem m a bs, DevPhase.pgData a'⟩ := by
  induction bs generalizing m a with
  | nil => exact ⟨a, rfl⟩
  | cons b bs ih =>
    simpa [spiWriteLoop, memDev, memStep, pgMem] using
      ih (memUpdate m a (m a &&& (b % 256))) ((a + 1) % 2 ^ 24)

/-- Page program against the double: the final memory is `pgMem`, the
decoder returns to idle. -/
theorem memDev_page_program (m : Nat → Nat) (ph : DevPhase) (addr : Nat)
    (buf : List Nat) (ha : addr < 2 ^ 24) :
    (m25p16_page_program memDev ⟨m, ph⟩ addr buf buf.length).1 =
      ⟨pgMem m addr buf, DevPhase.idle⟩ := by
  obtain ⟨a', h⟩ := spiWriteLoop_pg buf m addr
  have hdecode :
      (memDev.step ((memDev.step ((memDev.step ((memDev.step (memDev.onAssert ⟨m, ph⟩)
        CMD_PAGE_PROGRAM).1) (addr / 65536 % 256)).1) (addr / 256 % 256)).1)
        (addr % 256)).1 =
      ⟨m, DevPhase.pgData (addr24 [addr / 65536 % 256, addr / 256 % 256, addr % 256])⟩ := by
    rfl
  rw [addr24_decomp addr ha] at hdecode
  show memDev.onDeassert (spiWriteLoop memDev (buf.take buf.length)
      ((memDev.step ((memDev.step ((memDev.step ((memDev.step (memDev.onAssert ⟨m, ph⟩)
        CMD_PAGE_PROGRAM).1) (addr / 65536 % 256)).1) (addr / 256 % 256)).1)
        (addr % 256)).1)).1 = ⟨pgMem m addr buf, DevPhase.idle⟩
  rw [List.take_length, hdecode, h]
  rfl

/-- Reading `n` bytes from the double while it streams memory returns
the memory contents from `a` on, as long as no 24-bit wrap occurs. -/
theorem spiReadLoop_rd (n : Nat) (m : Nat → Nat) (a : Nat)
    (ha : a + n ≤ 2 ^ 24) :
    (spiReadLoop memDev n ⟨m, DevPhase.rdData a⟩).2.1 =
      (List.range n).map (fun i => m (a + i)) := by
  induction n generalizing a with
  | zero => simp [spiReadLoop]
  | succ n ih =>
    have hstep : memDev.step ⟨m, DevPhase.rdData a⟩ 0 =
        (⟨m, DevPhase.rdData ((a + 1) % 2 ^ 24)⟩, m a) := rfl
    cases n with
    | zero => simp [spiReadLoop, hstep, List.range_succ]
    | succ k =>
      have ha1 : (a + 1) % 2 ^ 24 = a + 1 := Nat.mod_eq_of_lt (by omega)
      have ih1 := ih (a + 1) (by omega)
      have hunf : (spiReadLoop memDev (k + 1 + 1) ⟨m, DevPhase.rdData a⟩).2.1 =
          m a :: (spiReadLoop memDev (k + 1)
            ⟨m, DevPhase.rdData ((a + 1) % 2 ^ 24)⟩).2.1 := rfl
      rw [hunf, ha1, ih1]
      conv_rhs => rw [List.range_succ_eq_map, List.map_cons, List.map_map]
      congr 1
      refine List.map_congr_left ?_
      intro i hi
      simp only [Function.comp_apply]
      congr 1
      omega

/-- Reading leaves the double's memory untouched and the decoder still
streaming. -/
theorem spiReadLoop_rd_state (n : Nat) (m : Nat → Nat) (a : Nat) :
    ∃ a', (spiReadLoop memDev n ⟨m, DevPhase.rdData a⟩).1 =
      ⟨m, DevPhase.rdData a'⟩ := by
  induction n generalizing a with
  | zero => exact ⟨a, rfl⟩
  | succ k ih => simpa [spiReadLoop, memDev, memStep] using ih ((a + 1) % 2 ^ 24)

/-- `m25p16_read_data_bytes` against the double leaves memory unchanged
and returns the decoder to idle. -/
theorem memDev_read_data_state (m : Nat → Nat) (ph : DevPhase)
    (addr siz : Nat) (hlt : addr < 2 ^ 24) :
    (m25p16_read_data_bytes memDev ⟨m, ph⟩ addr siz).1 = ⟨m, DevPhase.idle⟩ := by
  have hdecode :
      (memDev.step ((memDev.step ((memDev.step ((memDev.step (memDev.onAssert ⟨m, ph⟩)
        CMD_READ_DATA_BYTES).1) (addr / 65536 % 256)).1) (addr / 256 % 256)).1)
        (addr % 256)).1 =
      ⟨m, DevPhase.rdData (addr24 [addr / 65536 % 256, addr / 256 % 256, addr % 256])⟩ := by
    rfl
  rw [addr24_decomp addr hlt] at hdecode
  obtain ⟨a', h⟩ := spiReadLoop_rd_state siz m addr
  show memDev.onDeassert (spiReadLoop memDev siz
      ((memDev.step ((memDev.step ((memDev.step ((memDev.step (memDev.onAssert ⟨m, ph⟩)
        CMD_READ_DATA_BYTES).1) (addr / 65536 % 256)).1) (addr / 256 % 256)).1)
        (addr % 256)).1)).1 = ⟨m, DevPhase.idle⟩
  rw [hdecode, h]
  rfl

/-- `m25p16_read_data_bytes` against the double returns the `siz`
memory bytes starting at `addr`, in order. -/
theorem memDev_read_data_out (m : Nat → Nat) (ph : DevPhase)
    (addr siz : Nat) (hlt : addr < 2 ^ 24) (ha : addr + siz ≤ 2 ^ 24) :
    (m25p16_read_data_bytes memDev ⟨m, ph⟩ addr siz).2.1 =
      (List.range siz).map (fun i => m (addr + i)) := by
  have hdecode :
      (memDev.step ((memDev.step ((memDev.step ((memDev.step (memDev.onAssert ⟨m, ph⟩)
        CMD_READ_DATA_BYTES).1) (addr / 65536 % 256)).1) (addr / 256 % 256)).1)
        (addr % 256)).1 =
      ⟨m, DevPhase.rdData (addr24 [addr / 65536 % 256, addr / 256 % 256, addr % 256])⟩ := by
    rfl
  rw [addr24_decomp addr hlt] at hdecode
  show (spiReadLoop memDev siz
      ((memDev.step ((memDev.step ((memDev.step ((memDev.step (memDev.onAssert ⟨m, ph⟩)
        CMD_READ_DATA_BYTES).1) (addr / 65536 % 256)).1) (addr / 256 % 256)).1)
        (addr % 256)).1)).2.1 = (List.range siz).map (fun i => m (addr + i))
  rw [hdecode]
  exact spiReadLoop_rd siz m addr ha

/-- Addresses outside the programmed range keep their old contents. -/
theorem pgMem_outside (bs : List Nat) (m : Nat → Nat) (a x : Nat)
    (ha : a + bs.length < 2 ^ 24) (hx : x < a ∨ a + bs.length ≤ x) :
    pgMem m a bs x = m x := by
  induction bs generalizing m a with
  | nil => rfl
  | cons b bs ih =>
    have hlen : (b :: bs).length = bs.length + 1 := rfl
    rw [hlen] at ha hx
    have ha1 : (a + 1) % 2 ^ 24 = a + 1 := Nat.mod_eq_of_lt (by omega)
    simp only [pgMem, ha1]
    rw [ih (memUpdate m a (m a &&& (b % 256))) (a + 1) (by omega) (by omega)]
    have hxa : x ≠ a := by omega
    simp [memUpdate, hxa]

/-- Byte `i` of the programmed range holds the old contents ANDed with
the transmitted byte (program semantics: bits only cleared). -/
theorem pgMem_at (bs : List Nat) (m : Nat → Nat) (a i : Nat)
    (ha : a + bs.length < 2 ^ 24) (hi : i < bs.length) :
    pgMem m a bs (a + i) = m (a + i) &&& (bs.getD i 0 % 256) := by
  induction bs generalizing m a i with
  | nil => simp at hi
  | cons b bs ih =>
    have hlen : (b :: bs).length = bs.length + 1 := rfl
    rw [hlen] at ha hi
    have ha1 : (a + 1) % 2 ^ 24 = a + 1 := Nat.mod_eq_of_lt (by omega)
    simp only [pgMem, ha1]
    cases i with
    | zero =>
      rw [pgMem_outside bs (memUpdate m a (m a &&& (b % 256))) (a + 1) (a + 0)
        (by omega) (by omega)]
      simp [memUpdate]
    | succ j =>
      have hj := ih (memUpdate m a (m a &&& (b % 256))) (a + 1) j (by omega) (by omega)
      rw [show a + (j + 1) = a + 1 + j by omega, hj]
      have hne : a + 1 + j ≠ a := by omega
      simp [memUpdate, hne]

/-- Mask arithmetic: ANDing with an all-ones byte is reduction mod 256. -/
theorem and_255_eq (y : Nat) : 255 &&& y = y % 256 := by
  rw [Nat.and_comm]
  have h := Nat.and_pow_two_sub_one_eq_mod y 8
  norm_num at h
  exact h

/-- Programming a fully erased region and reading it back gives the
buffer: the round-trip list identity on the double's memory. -/
theorem pgMem_roundtrip (bs : List Nat) (a : Nat)
    (ha : a + bs.length < 2 ^ 24) (hb : ∀ b ∈ bs, b < 256) :
    (List.range bs.length).map (fun i => pgMem (fun _ => 255) a bs (a + i)) = bs := by
  refine List.ext_getElem (by simp) ?_
  intro i h1 h2
  simp only [List.getElem_map, List.getElem_range]
  rw [pgMem_at bs (fun _ => 255) a i ha h2, List.getD_eq_getElem bs 0 h2,
    and_255_eq]
  have hlt := hb bs[i] (List.getElem_mem h2)
  omega

/-- `flash_page_write` of a whole buffer against the double succeeds
and leaves memory `pgMem` at the page's byte address. -/
theorem memDev_flash_page_write (m0 : Nat → Nat) (fuel p : Nat) (buf : List Nat)
    (hp : p < M25P16_PAGE_COUNT) (hl : buf.length ≤ M25P16_PAGE_BYTE_SIZE) :
    ∃ tr, flash_page_write memDev (fuel + 1) ⟨m0, DevPhase.idle⟩ p buf buf.length =
      some (⟨pgMem m0 (256 * p) buf, DevPhase.idle⟩, 0, tr) := by
  have hp8 : p < 8192 := hp
  have haddr : M25P16_PAGE_BYTE_SIZE * p % UINT32_MOD = 256 * p := by
    show 256 * p % 2 ^ 32 = 256 * p
    exact Nat.mod_eq_of_lt (by omega)
  have hns : ¬ (M25P16_PAGE_BYTE_SIZE < buf.length) := not_lt.mpr hl
  have h1 : (m25p16_write_enable memDev ⟨m0, DevPhase.idle⟩).1 =
      ⟨m0, DevPhase.idle⟩ := rfl
  have h2 : (m25p16_page_program memDev ⟨m0, DevPhase.idle⟩ (256 * p) buf
      buf.length).1 = ⟨pgMem m0 (256 * p) buf, DevPhase.idle⟩ :=
    memDev_page_program m0 DevPhase.idle (256 * p) buf (by omega)
  have h3 := memDev_pollWip fuel (⟨pgMem m0 (256 * p) buf, DevPhase.idle⟩ : MemDev)
  have h4 : (m25p16_write_disable memDev
      ⟨pgMem m0 (256 * p) buf, DevPhase.idle⟩).1 =
      ⟨pgMem m0 (256 * p) buf, DevPhase.idle⟩ := rfl
  refine ⟨[Ev.asrt, Ev.xmit CMD_WRITE_ENABLE 0, Ev.deassert] ++
    (m25p16_page_program memDev ⟨m0, DevPhase.idle⟩ (256 * p) buf buf.length).2 ++
    [Ev.asrt, Ev.xmit CMD_READ_STATUS_REGISTER 0, Ev.xmit 0 0, Ev.deassert] ++
    [Ev.asrt, Ev.xmit CMD_WRITE_DISABLE 0, Ev.deassert], ?_⟩
  simp only [flash_page_write, haddr, if_neg hns, memDev_write_enable, h2, h3,
    memDev_write_disable]

/-- `flash_page_read` against the double returns the memory bytes of
the page prefix and result code 0. -/
theorem memDev_flash_page_read (m1 : Nat → Nat) (p siz : Nat)
    (hp : p < M25P16_PAGE_COUNT) (hs : siz ≤ M25P16_PAGE_BYTE_SIZE) :
    ∃ s' tr, flash_page_read memDev ⟨m1, DevPhase.idle⟩ p siz =
      (s', 0, (List.range siz).map (fun i => m1 (256 * p + i)), tr) := by
  have hp8 : p < 8192 := hp
  have hs2 : siz ≤ 256 := hs
  have haddr : M25P16_PAGE_BYTE_SIZE * p % UINT32_MOD = 256 * p := by
    show 256 * p % 2 ^ 32 = 256 * p
    exact Nat.mod_eq_of_lt (by omega)
  have hns : ¬ (M25P16_PAGE_BYTE_SIZE < siz) := not_lt.mpr hs
  have hout := memDev_read_data_out m1 DevPhase.idle (256 * p) siz
    (by omega) (by omega)
  refine ⟨(m25p16_read_data_bytes memDev ⟨m1, DevPhase.idle⟩ (256 * p) siz).1,
    (m25p16_read_data_bytes memDev ⟨m1, DevPhase.idle⟩ (256 * p) siz).2.2, ?_⟩
  simp only [flash_page_read, haddr, if_neg hns, hout]

/-- C1: every mutating façade operation (`flash_sector_erase` on any
sector, `flash_page_write` on any page with `siz ≤ page_bytes`) issues
exactly write_enable, then the mutating command, then one or more
read_status_register polls until the WIP bit clears, then
write_disable, in that order with no other driver calls interleaved:
the SPI trace decomposes as exactly those driver calls' traces, with
the poll section a `PollTrace` (all but the last polled status byte
have WIP set, the last has it clear). -/
theorem protocol_discipline_C1 :
    (∀ (σ : Type) (D : Dev σ) (fuel : Nat) (s : σ) (sector : Nat) (s' : σ)
       (r : Int) (tr : List Ev),
      flash_sector_erase D fuel s sector = some (s', r, tr) →
      ∃ s1 trWE s2 trSE s3 regs trP s4 trWD,
        m25p16_write_enable D s = (s1, trWE) ∧
        m25p16_sector_erase D s1 (M25P16_SECTOR_BYTE_SIZE * sector % UINT32_MOD)
          = (s2, trSE) ∧
        PollTrace D s2 s3 regs trP ∧
        m25p16_write_disable D s3 = (s4, trWD) ∧
        s' = s4 ∧ tr = trWE ++ trSE ++ trP ++ trWD) ∧
    (∀ (σ : Type) (D : Dev σ) (fuel : Nat) (s : σ) (page : Nat)
       (buf : List Nat) (siz : Nat) (s' : σ) (r : Int) (tr : List Ev),
      siz ≤ M25P16_PAGE_BYTE_SIZE →
      flash_page_write D fuel s page buf siz = some (s', r, tr) →
      ∃ s1 trWE s2 trPP s3 regs trP s4 trWD,
        m25p16_write_enable D s = (s1, trWE) ∧
        m25p16_page_program D s1 (M25P16_PAGE_BYTE_SIZE * page % UINT32_MOD)
          buf siz = (s2, trPP) ∧
        PollTrace D s2 s3 regs trP ∧
        m25p16_write_disable D s3 = (s4, trWD) ∧
        s' = s4 ∧ tr = trWE ++ trPP ++ trP ++ trWD) := by
  constructor
  · intro σ D fuel s sector s' r tr h
    obtain ⟨s1, trWE, s2, trSE, s3, regs, trP, s4, trWD, h1, h2, h3, h4, h5, _, h7⟩ :=
      flash_sector_erase_decomp D fuel s sector s' r tr h
    exact ⟨s1, trWE, s2, trSE, s3, regs, trP, s4, trWD, h1, h2, h3, h4, h5, h7⟩
  · intro σ D fuel s page buf siz s' r tr hs h
    obtain ⟨s1, trWE, s2, trPP, s3, regs, trP, s4, trWD, h1, h2, h3, h4, h5, _, h7⟩ :=
      flash_page_write_decomp D fuel s page buf siz s' r tr hs h
    exact ⟨s1, trWE, s2, trPP, s3, regs, trP, s4, trWD, h1, h2, h3, h4, h5, h7⟩

/-- C1 witness: against the always-ready double, a sector erase and an
in-size page write complete, and the claimed decompositions hold at
those concrete runs. -/
theorem protocol_discipline_C1_witness :
    (∃ s1 trWE s2 trSE s3 regs trP s4 trWD,
      m25p16_write_enable zeroDev () = (s1, trWE) ∧
      m25p16_sector_erase zeroDev s1 (M25P16_SECTOR_BYTE_SIZE * 0 % UINT32_MOD)
        = (s2, trSE) ∧
      PollTrace zeroDev s2 s3 regs trP ∧
      m25p16_write_disable zeroDev s3 = (s4, trWD) ∧
      (() : Unit) = s4 ∧
      ([Ev.asrt, Ev.xmit CMD_WRITE_ENABLE 0, Ev.deassert,
        Ev.asrt, Ev.xmit CMD_SECTOR_ERASE 0, Ev.xmit 0 0, Ev.xmit 0 0,
        Ev.xmit 0 0, Ev.deassert,
        Ev.asrt, Ev.xmit CMD_READ_STATUS_REGISTER 0, Ev.xmit 0 0, Ev.deassert,
        Ev.asrt, Ev.xmit CMD_WRITE_DISABLE 0, Ev.deassert] : List Ev)
        = trWE ++ trSE ++ trP ++ trWD) ∧
    (∃ s1 trWE s2 trPP s3 regs trP s4 trWD,
      m25p16_write_enable zeroDev () = (s1, trWE) ∧
      m25p16_page_program zeroDev s1 (M25P16_PAGE_BYTE_SIZE * 0 % UINT32_MOD)
        [0xAA] 1 = (s2, trPP) ∧
      PollTrace zeroDev s2 s3 regs trP ∧
      m25p16_write_disable zeroDev s3 = (s4, trWD) ∧
      (() : Unit) = s4 ∧
      ([Ev.asrt, Ev.xmit CMD_WRITE_ENABLE 0, Ev.deassert,
        Ev.asrt, Ev.xmit CMD_PAGE_PROGRAM 0, Ev.xmit 0 0, Ev.xmit 0 0,
        Ev.xmit 0 0, Ev.xmit 0xAA 0, Ev.deassert,
        Ev.asrt, Ev.xmit CMD_READ_STATUS_REGISTER 0, Ev.xmit 0 0, Ev.deassert,
        Ev.asrt, Ev.xmit CMD_WRITE_DISABLE 0, Ev.deassert] : List Ev)
        = trWE ++ trPP ++ trP ++ trWD) := by
  constructor
  · exact protocol_discipline_C1.1 Unit zeroDev 1 () 0 () 0 _ (by decide)
  · exact protocol_discipline_C1.2 Unit zeroDev 1 () 0 [0xAA] 1 () 0 _
      (by decide) (by decide)

/-- C7: `flash_sector_erase` performs no bound check on the sector
index.  Part 1: for every sector index, in range or not, a completed
call decomposes into the full write-enable / erase-at
`sector × sector_bytes (mod 2^32)` / poll / write-disable sequence —
the same shape for out-of-range indices as for in-range ones.  Part 2:
the function depends on the sector index only through the computed
byte address, so any two indices with the same computed address are
treated identically (there is no index validation). -/
theorem no_bound_check_C7 :
    (∀ (σ : Type) (D : Dev σ) (fuel : Nat) (s : σ) (sector : Nat) (s' : σ)
       (r : Int) (tr : List Ev),
      M25P16_SECTOR_COUNT ≤ sector →
      flash_sector_erase D fuel s sector = some (s', r, tr) →
      ∃ s1 trWE s2 trSE s3 regs trP s4 trWD,
        m25p16_write_enable D s = (s1, trWE) ∧
        m25p16_sector_erase D s1 (M25P16_SECTOR_BYTE_SIZE * sector % UINT32_MOD)
          = (s2, trSE) ∧
        PollTrace D s2 s3 regs trP ∧
        m25p16_write_disable D s3 = (s4, trWD) ∧
        s' = s4 ∧ r = 0 ∧ tr = trWE ++ trSE ++ trP ++ trWD) ∧
    (∀ (σ : Type) (D : Dev σ) (fuel : Nat) (s : σ) (sector₁ sector₂ : Nat),
      M25P16_SECTOR_BYTE_SIZE * sector₁ % UINT32_MOD =
        M25P16_SECTOR_BYTE_SIZE * sector₂ % UINT32_MOD →
      flash_sector_erase D fuel s sector₁ = flash_sector_erase D fuel s sector₂) := by
  constructor
  · intro σ D fuel s sector s' r tr _ h
    exact flash_sector_erase_decomp D fuel s sector s' r tr h
  · intro σ D fuel s sector₁ sector₂ h
    simp only [flash_sector_erase, h]

/-- C7 witness: sector 32 (the first out-of-range index on a 32-sector
part) is accepted and erased at byte address `32 × 65536 = 0x200000`,
completing the full sequence with result 0. -/
theorem no_bound_check_C7_witness :
    (∃ s1 trWE s2 trSE s3 regs trP s4 trWD,
      m25p16_write_enable zeroDev () = (s1, trWE) ∧
      m25p16_sector_erase zeroDev s1 (M25P16_SECTOR_BYTE_SIZE * 32 % UINT32_MOD)
        = (s2, trSE) ∧
      PollTrace zeroDev s2 s3 regs trP ∧
      m25p16_write_disable zeroDev s3 = (s4, trWD) ∧
      (() : Unit) = s4 ∧ (0 : Int) = 0 ∧
      ([Ev.asrt, Ev.xmit CMD_WRITE_ENABLE 0, Ev.deassert,
        Ev.asrt, Ev.xmit CMD_SECTOR_ERASE 0, Ev.xmit 0x20 0, Ev.xmit 0 0,
        Ev.xmit 0 0, Ev.deassert,
        Ev.asrt, Ev.xmit CMD_READ_STATUS_REGISTER 0, Ev.xmit 0 0, Ev.deassert,
        Ev.asrt, Ev.xmit CMD_WRITE_DISABLE 0, Ev.deassert] : List Ev)
        = trWE ++ trSE ++ trP ++ trWD) ∧
    flash_sector_erase zeroDev 1 () 32 = flash_sector_erase zeroDev 1 () 1048608 := by
  constructor
  · exact no_bound_check_C7.1 Unit zeroDev 1 () 32 () 0 _ (by decide) (by decide)
  · exact no_bound_check_C7.2 Unit zeroDev 1 () 32 1048608 (by decide)

/-- C10: the façade's only failure path is the local size check:
whenever a sector erase or an in-size page write completes, the
returned result is 0, for every index and every device behaviour. -/
theorem success_result_C10 :
    (∀ (σ : Type) (D : Dev σ) (fuel : Nat) (s : σ) (sector : Nat) (s' : σ)
       (r : Int) (tr : List Ev),
      flash_sector_erase D fuel s sector = some (s', r, tr) → r = 0) ∧
    (∀ (σ : Type) (D : Dev σ) (fuel : Nat) (s : σ) (page : Nat)
       (buf : List Nat) (siz : Nat) (s' : σ) (r : Int) (tr : List Ev),
      siz ≤ M25P16_PAGE_BYTE_SIZE →
      flash_page_write D fuel s page buf siz = some (s', r, tr) → r = 0) := by
  constructor
  · intro σ D fuel s sector s' r tr h
    obtain ⟨_, _, _, _, _, _, _, _, _, _, _, _, _, _, h6, _⟩ :=
      flash_sector_erase_decomp D fuel s sector s' r tr h
    exact h6
  · intro σ D fuel s page buf siz s' r tr hs h
    obtain ⟨_, _, _, _, _, _, _, _, _, _, _, _, _, _, h6, _⟩ :=
      flash_page_write_decomp D fuel s page buf siz s' r tr hs h
    exact h6

/-- C10 witness: a concrete erase of sector 5 and a concrete 2-byte
page write both return 0. -/
theorem success_result_C10_witness : (0 : Int) = 0 ∧ (0 : Int) = 0 :=
  ⟨success_result_C10.1 Unit zeroDev 1 () 5 () 0
      ([Ev.asrt, Ev.xmit CMD_WRITE_ENABLE 0, Ev.deassert,
        Ev.asrt, Ev.xmit CMD_SECTOR_ERASE 0, Ev.xmit 5 0, Ev.xmit 0 0,
        Ev.xmit 0 0, Ev.deassert,
        Ev.asrt, Ev.xmit CMD_READ_STATUS_REGISTER 0, Ev.xmit 0 0, Ev.deassert,
        Ev.asrt, Ev.xmit CMD_WRITE_DISABLE 0, Ev.deassert]) (by decide),
   success_result_C10.2 Unit zeroDev 1 () 0 [0xAA, 0xBB] 2 () 0
      ([Ev.asrt, Ev.xmit CMD_WRITE_ENABLE 0, Ev.deassert,
        Ev.asrt, Ev.xmit CMD_PAGE_PROGRAM 0, Ev.xmit 0 0, Ev.xmit 0 0,
        Ev.xmit 0 0, Ev.xmit 0xAA 0, Ev.xmit 0xBB 0, Ev.deassert,
        Ev.asrt, Ev.xmit CMD_READ_STATUS_REGISTER 0, Ev.xmit 0 0, Ev.deassert,
        Ev.asrt, Ev.xmit CMD_WRITE_DISABLE 0, Ev.deassert]) (by decide) (by decide)⟩

/-- C2: with `siz > page_bytes`, `flash_page_write` and
`flash_page_read` return -1 (a nonzero size error) with the device
state untouched, an empty read-back buffer, and an empty SPI trace (no
assert, transmit or deassert at all); with `siz ≤ page_bytes` the size
check passes: the read performs bus traffic and returns 0, and a
completed write returns 0 with a nonempty trace. -/
theorem size_check_C2 :
    (∀ (σ : Type) (D : Dev σ) (fuel : Nat) (s : σ) (page : Nat)
       (buf : List Nat) (siz : Nat),
      M25P16_PAGE_BYTE_SIZE < siz →
      flash_page_write D fuel s page buf siz = some (s, -1, [])) ∧
    (∀ (σ : Type) (D : Dev σ) (s : σ) (page siz : Nat),
      M25P16_PAGE_BYTE_SIZE < siz →
      flash_page_read D s page siz = (s, -1, [], [])) ∧
    (∀ (σ : Type) (D : Dev σ) (s : σ) (page siz : Nat),
      siz ≤ M25P16_PAGE_BYTE_SIZE →
      ∃ s' out tr, flash_page_read D s page siz = (s', 0, out, tr) ∧ tr ≠ []) ∧
    (∀ (σ : Type) (D : Dev σ) (fuel : Nat) (s : σ) (page : Nat)
       (buf : List Nat) (siz : Nat) (s' : σ) (r : Int) (tr : List Ev),
      siz ≤ M25P16_PAGE_BYTE_SIZE →
      flash_page_write D fuel s page buf siz = some (s', r, tr) →
      r = 0 ∧ tr ≠ []) := by
  refine ⟨?_, ?_, ?_, ?_⟩
  · intro σ D fuel s page buf siz hs
    simp only [flash_page_write, if_pos hs]
  · intro σ D s page siz hs
    simp only [flash_page_read, if_pos hs]
  · intro σ D s page siz hs
    have hns : ¬ (M25P16_PAGE_BYTE_SIZE < siz) := not_lt.mpr hs
    refine ⟨(m25p16_read_data_bytes D s
        (M25P16_PAGE_BYTE_SIZE * page % UINT32_MOD) siz).1,
      (m25p16_read_data_bytes D s
        (M25P16_PAGE_BYTE_SIZE * page % UINT32_MOD) siz).2.1,
      (m25p16_read_data_bytes D s
        (M25P16_PAGE_BYTE_SIZE * page % UINT32_MOD) siz).2.2, ?_, ?_⟩
    · simp only [flash_page_read, if_neg hns]
    · simp [m25p16_read_data_bytes]
  · intro σ D fuel s page buf siz s' r tr hs h
    obtain ⟨s1, trWE, s2, trPP, s3, regs, trP, s4, trWD, h1, _, _, _, _, h6, h7⟩ :=
      flash_page_write_decomp D fuel s page buf siz s' r tr hs h
    refine ⟨h6, ?_⟩
    have htrWE : trWE = [Ev.asrt, Ev.xmit CMD_WRITE_ENABLE
        (D.step (D.onAssert s) CMD_WRITE_ENABLE).2, Ev.deassert] := by
      have := congrArg Prod.snd h1
      simpa [m25p16_write_enable] using this.symm
    subst h7
    simp [htrWE]

/-- C2 witness: at `siz = 257` the write and the read against a
concrete transport return -1 with empty traces; at `siz = 2` the read
returns 0 over a nonempty trace and the write returns 0. -/
theorem size_check_C2_witness :
    flash_page_write zeroDev 1 () 0 [] 257 = some ((), -1, []) ∧
    flash_page_read zeroDev () 0 257 = ((), -1, [], []) ∧
    (∃ s' out tr, flash_page_read zeroDev () 0 2 = (s', 0, out, tr) ∧ tr ≠ []) ∧
    ((0 : Int) = 0 ∧
      ([Ev.asrt, Ev.xmit CMD_WRITE_ENABLE 0, Ev.deassert,
        Ev.asrt, Ev.xmit CMD_PAGE_PROGRAM 0, Ev.xmit 0 0, Ev.xmit 0 0,
        Ev.xmit 0 0, Ev.xmit 1 0, Ev.xmit 2 0, Ev.deassert,
        Ev.asrt, Ev.xmit CMD_READ_STATUS_REGISTER 0, Ev.xmit 0 0, Ev.deassert,
        Ev.asrt, Ev.xmit CMD_WRITE_DISABLE 0, Ev.deassert] : List Ev) ≠ []) :=
  ⟨size_check_C2.1 Unit zeroDev 1 () 0 [] 257 (by decide),
   size_check_C2.2.1 Unit zeroDev () 0 257 (by decide),
   size_check_C2.2.2.1 Unit zeroDev () 0 2 (by decide),
   size_check_C2.2.2.2 Unit zeroDev 1 () 0 [1, 2] 2 () 0 _ (by decide) (by decide)⟩

/-- C5: for every in-range sector `s < 32`, `flash_sector_erase`
computes the byte address `s × sector_bytes` and the chip driver
transmits it as three bytes most-significant-first right after the
Sector Erase opcode (the three transmitted bytes reassemble to the
address MSB-first); in particular at sector 31 the address is
`0x1F0000` and the transmitted address bytes are `0x1F, 0x00, 0x00`. -/
theorem sector_addressing_C5 :
    (∀ (σ : Type) (D : Dev σ) (fuel : Nat) (s : σ) (sector : Nat) (s' : σ)
       (r : Int) (tr : List Ev),
      sector < M25P16_SECTOR_COUNT →
      flash_sector_erase D fuel s sector = some (s', r, tr) →
      ∃ trWE d0 d1 d2 d3 rest,
        tr = trWE ++ [Ev.asrt, Ev.xmit CMD_SECTOR_ERASE d0,
          Ev.xmit (M25P16_SECTOR_BYTE_SIZE * sector / 65536) d1,
          Ev.xmit (M25P16_SECTOR_BYTE_SIZE * sector / 256 % 256) d2,
          Ev.xmit (M25P16_SECTOR_BYTE_SIZE * sector % 256) d3,
          Ev.deassert] ++ rest ∧
        M25P16_SECTOR_BYTE_SIZE * sector / 65536 * 65536 +
          M25P16_SECTOR_BYTE_SIZE * sector / 256 % 256 * 256 +
          M25P16_SECTOR_BYTE_SIZE * sector % 256 =
          M25P16_SECTOR_BYTE_SIZE * sector) ∧
    (∀ (σ : Type) (D : Dev σ) (st : σ), ∃ d0 d1 d2 d3,
      (m25p16_sector_erase D st 0x1F0000).2 =
        [Ev.asrt, Ev.xmit CMD_SECTOR_ERASE d0, Ev.xmit 0x1F d1,
         Ev.xmit 0x00 d2, Ev.xmit 0x00 d3, Ev.deassert]) ∧
    M25P16_SECTOR_BYTE_SIZE * 31 = 0x1F0000 := by
  refine ⟨?_, ?_, rfl⟩
  · intro σ D fuel s sector s' r tr hsec h
    obtain ⟨s1, trWE, s2, trSE, s3, regs, trP, s4, trWD, h1, h2, _, _, _, _, h7⟩ :=
      flash_sector_erase_decomp D fuel s sector s' r tr h
    have hsec32 : sector < 32 := hsec
    have haddr : M25P16_SECTOR_BYTE_SIZE * sector % UINT32_MOD =
        M25P16_SECTOR_BYTE_SIZE * sector := by
      show 65536 * sector % 2 ^ 32 = 65536 * sector
      exact Nat.mod_eq_of_lt (by omega)
    rw [haddr] at h2
    rcases hp0 : D.step (D.onAssert s1) CMD_SECTOR_ERASE with ⟨t1, d0⟩
    rcases hp1 : D.step t1 (M25P16_SECTOR_BYTE_SIZE * sector / 65536 % 256)
      with ⟨t2, d1⟩
    rcases hp2 : D.step t2 (M25P16_SECTOR_BYTE_SIZE * sector / 256 % 256)
      with ⟨t3, d2⟩
    rcases hp3 : D.step t3 (M25P16_SECTOR_BYTE_SIZE * sector % 256)
      with ⟨t4, d3⟩
    have htrSE : trSE = [Ev.asrt,
        Ev.xmit CMD_SECTOR_ERASE d0,
        Ev.xmit (M25P16_SECTOR_BYTE_SIZE * sector / 65536 % 256) d1,
        Ev.xmit (M25P16_SECTOR_BYTE_SIZE * sector / 256 % 256) d2,
        Ev.xmit (M25P16_SECTOR_BYTE_SIZE * sector % 256) d3,
        Ev.deassert] := by
      have hsnd := congrArg Prod.snd h2
      simp only [m25p16_sector_erase, hp0, hp1, hp2, hp3] at hsnd
      exact hsnd.symm
    have hb2 : M25P16_SECTOR_BYTE_SIZE * sector / 65536 % 256 =
        M25P16_SECTOR_BYTE_SIZE * sector / 65536 := by
      show 65536 * sector / 65536 % 256 = 65536 * sector / 65536
      omega
    rw [hb2] at htrSE
    refine ⟨trWE, d0, d1, d2, d3, trP ++ trWD, ?_, ?_⟩
    · rw [h7, htrSE]
      simp [List.append_assoc]
    · show 65536 * sector / 65536 * 65536 + 65536 * sector / 256 % 256 * 256 +
        65536 * sector % 256 = 65536 * sector
      omega
  · intro σ D st
    exact ⟨_, _, _, _, rfl⟩

/-- C5 witness: erasing sector 31 against a concrete transport puts
`0x1F, 0x00, 0x00` on the bus right after the Sector Erase opcode. -/
theorem sector_addressing_C5_witness :
    ∃ trWE d0 d1 d2 d3 rest,
      ([Ev.asrt, Ev.xmit CMD_WRITE_ENABLE 0, Ev.deassert,
        Ev.asrt, Ev.xmit CMD_SECTOR_ERASE 0, Ev.xmit 0x1F 0, Ev.xmit 0 0,
        Ev.xmit 0 0, Ev.deassert,
        Ev.asrt, Ev.xmit CMD_READ_STATUS_REGISTER 0, Ev.xmit 0 0, Ev.deassert,
        Ev.asrt, Ev.xmit CMD_WRITE_DISABLE 0, Ev.deassert] : List Ev)
        = trWE ++ [Ev.asrt, Ev.xmit CMD_SECTOR_ERASE d0,
          Ev.xmit (M25P16_SECTOR_BYTE_SIZE * 31 / 65536) d1,
          Ev.xmit (M25P16_SECTOR_BYTE_SIZE * 31 / 256 % 256) d2,
          Ev.xmit (M25P16_SECTOR_BYTE_SIZE * 31 % 256) d3,
          Ev.deassert] ++ rest ∧
      M25P16_SECTOR_BYTE_SIZE * 31 / 65536 * 65536 +
        M25P16_SECTOR_BYTE_SIZE * 31 / 256 % 256 * 256 +
        M25P16_SECTOR_BYTE_SIZE * 31 % 256 = M25P16_SECTOR_BYTE_SIZE * 31 :=
  sector_addressing_C5.1 Unit zeroDev 1 () 31 () 0 _ (by decide) (by decide)

/-- C6: every chip-driver operation transmits as its first byte exactly
the opcode of the spec table: 0x06 write enable, 0x04 write disable,
0x9F read identification, 0x05 read status register, 0x01 write status
register, 0x03 read data bytes, 0x02 page program, 0xD8 sector erase,
0xC7 bulk erase, 0xB9 deep power-down, 0xAB release from deep
power-down, and on the extended variant 0xE5 write lock register and
0xE8 read lock register. -/
theorem opcode_table_C6 :
    (∀ (σ : Type) (D : Dev σ) (s : σ),
      firstOp (m25p16_write_enable D s).2 = some 0x06) ∧
    (∀ (σ : Type) (D : Dev σ) (s : σ),
      firstOp (m25p16_write_disable D s).2 = some 0x04) ∧
    (∀ (σ : Type) (D : Dev σ) (s : σ),
      firstOp (m25p16_read_identification D s).2.2 = some 0x9F) ∧
    (∀ (σ : Type) (D : Dev σ) (s : σ),
      firstOp (m25p16_read_status_register D s).2.2 = some 0x05) ∧
    (∀ (σ : Type) (D : Dev σ) (s : σ) (sreg : Nat),
      firstOp (m25p16_write_status_register D s sreg).2 = some 0x01) ∧
    (∀ (σ : Type) (D : Dev σ) (s : σ) (addr siz : Nat),
      firstOp (m25p16_read_data_bytes D s addr siz).2.2 = some 0x03) ∧
    (∀ (σ : Type) (D : Dev σ) (s : σ) (addr : Nat) (buf : List Nat) (siz : Nat),
      firstOp (m25p16_page_program D s addr buf siz).2 = some 0x02) ∧
    (∀ (σ : Type) (D : Dev σ) (s : σ) (addr : Nat),
      firstOp (m25p16_sector_erase D s addr).2 = some 0xD8) ∧
    (∀ (σ : Type) (D : Dev σ) (s : σ),
      firstOp (m25p16_bulk_erase D s).2 = some 0xC7) ∧
    (∀ (σ : Type) (D : Dev σ) (s : σ),
      firstOp (m25p16_deep_power_down D s).2 = some 0xB9) ∧
    (∀ (σ : Type) (D : Dev σ) (s : σ),
      firstOp (m25p16_release_from_deep_power_down D s).2 = some 0xAB) ∧
    (∀ (σ : Type) (D : Dev σ) (s : σ) (addr lockreg : Nat),
      firstOp (m25px16_write_lock_register D s addr lockreg).2 = some 0xE5) ∧
    (∀ (σ : Type) (D : Dev σ) (s : σ) (addr : Nat),
      firstOp (m25px16_read_lock_register D s addr).2.2 = some 0xE8) := by
  refine ⟨?_, ?_, ?_, ?_, ?_, ?_, ?_, ?_, ?_, ?_, ?_, ?_, ?_⟩ <;>
    intros <;> rfl

/-- C8: every chip-driver operation performs exactly one scoped bus
acquisition: its trace is a single assert, then only byte exchanges,
then a single deassert — the bus is never left asserted and nothing is
transmitted or received outside the asserted interval. -/
theorem scoped_bus_C8 :
    (∀ (σ : Type) (D : Dev σ) (s : σ),
      scopedOnce (m25p16_write_enable D s).2) ∧
    (∀ (σ : Type) (D : Dev σ) (s : σ),
      scopedOnce (m25p16_write_disable D s).2) ∧
    (∀ (σ : Type) (D : Dev σ) (s : σ),
      scopedOnce (m25p16_read_identification D s).2.2) ∧
    (∀ (σ : Type) (D : Dev σ) (s : σ),
      scopedOnce (m25p16_read_status_register D s).2.2) ∧
    (∀ (σ : Type) (D : Dev σ) (s : σ) (sreg : Nat),
      scopedOnce (m25p16_write_status_register D s sreg).2) ∧
    (∀ (σ : Type) (D : Dev σ) (s : σ) (addr siz : Nat),
      scopedOnce (m25p16_read_data_bytes D s addr siz).2.2) ∧
    (∀ (σ : Type) (D : Dev σ) (s : σ) (addr : Nat) (buf : List Nat) (siz : Nat),
      scopedOnce (m25p16_page_program D s addr buf siz).2) ∧
    (∀ (σ : Type) (D : Dev σ) (s : σ) (addr : Nat),
      scopedOnce (m25p16_sector_erase D s addr).2) ∧
    (∀ (σ : Type) (D : Dev σ) (s : σ),
      scopedOnce (m25p16_bulk_erase D s).2) ∧
    (∀ (σ : Type) (D : Dev σ) (s : σ),
      scopedOnce (m25p16_deep_power_down D s).2) ∧
    (∀ (σ : Type) (D : Dev σ) (s : σ),
      scopedOnce (m25p16_release_from_deep_power_down D s).2) ∧
    (∀ (σ : Type) (D : Dev σ) (s : σ) (addr lockreg : Nat),
      scopedOnce (m25px16_write_lock_register D s addr lockreg).2) ∧
    (∀ (σ : Type) (D : Dev σ) (s : σ) (addr : Nat),
      scopedOnce (m25px16_read_lock_register D s addr).2.2) := by
  refine ⟨?_, ?_, ?_, ?_, ?_, ?_, ?_, ?_, ?_, ?_, ?_, ?_, ?_⟩ <;> intros
  case _ σ D s =>
    exact ⟨[Ev.xmit CMD_WRITE_ENABLE (D.step (D.onAssert s) CMD_WRITE_ENABLE).2],
      rfl, by simp [isXmit]⟩
  case _ σ D s =>
    exact ⟨[Ev.xmit CMD_WRITE_DISABLE (D.step (D.onAssert s) CMD_WRITE_DISABLE).2],
      rfl, by simp [isXmit]⟩
  case _ σ D s =>
    refine ⟨[Ev.xmit CMD_READ_IDENTIFICATION
        (D.step (D.onAssert s) CMD_READ_IDENTIFICATION).2] ++
      [Ev.xmit 0 (m25p16_read_identification D s).2.1.manufacturer,
       Ev.xmit 0 (m25p16_read_identification D s).2.1.memory_type,
       Ev.xmit 0 (m25p16_read_identification D s).2.1.memory_capacity,
       Ev.xmit 0 (m25p16_read_identification D s).2.1.cfd_length] ++
      (spiReadLoop D (m25p16_read_identification D s).2.1.cfd_length
        ((D.step ((D.step ((D.step ((D.step ((D.step (D.onAssert s)
          CMD_READ_IDENTIFICATION).1) 0).1) 0).1) 0).1) 0).1)).2.2, rfl, ?_⟩
    intro e he
    rcases List.mem_append.mp he with he | he
    · rcases List.mem_append.mp he with he | he
      · simp only [List.mem_singleton] at he
        exact ⟨_, _, he⟩
      · simp only [List.mem_cons, List.not_mem_nil, or_false] at he
        rcases he with he | he | he | he <;> exact ⟨_, _, he⟩
    · exact spiReadLoop_xmit D _ _ e he
  case _ σ D s =>
    exact ⟨[Ev.xmit CMD_READ_STATUS_REGISTER
        (D.step (D.onAssert s) CMD_READ_STATUS_REGISTER).2,
      Ev.xmit 0 (m25p16_read_status_register D s).2.1], rfl, by simp [isXmit]⟩
  case _ σ D s sreg =>
    exact ⟨[Ev.xmit CMD_WRITE_STATUS_REGISTER
        (D.step (D.onAssert s) CMD_WRITE_STATUS_REGISTER).2,
      Ev.xmit sreg (D.step (D.step (D.onAssert s)
        CMD_WRITE_STATUS_REGISTER).1 sreg).2], rfl, by simp [isXmit]⟩
  case _ σ D s addr siz =>
    refine ⟨[Ev.xmit CMD_READ_DATA_BYTES
        (D.step (D.onAssert s) CMD_READ_DATA_BYTES).2,
      Ev.xmit (addr / 65536 % 256) (D.step ((D.step (D.onAssert s)
        CMD_READ_DATA_BYTES).1) (addr / 65536 % 256)).2,
      Ev.xmit (addr / 256 % 256) (D.step ((D.step ((D.step (D.onAssert s)
        CMD_READ_DATA_BYTES).1) (addr / 65536 % 256)).1) (addr / 256 % 256)).2,
      Ev.xmit (addr % 256) (D.step ((D.step ((D.step ((D.step (D.onAssert s)
        CMD_READ_DATA_BYTES).1) (addr / 65536 % 256)).1) (addr / 256 % 256)).1)
        (addr % 256)).2] ++
      (spiReadLoop D siz ((D.step ((D.step ((D.step ((D.step (D.onAssert s)
        CMD_READ_DATA_BYTES).1) (addr / 65536 % 256)).1) (addr / 256 % 256)).1)
        (addr % 256)).1)).2.2, rfl, ?_⟩
    intro e he
    rcases List.mem_append.mp he with he | he
    · simp only [List.mem_cons, List.not_mem_nil, or_false] at he
      rcases he with he | he | he | he <;> exact ⟨_, _, he⟩
    · exact spiReadLoop_xmit D _ _ e he
  case _ σ D s addr buf siz =>
    refine ⟨[Ev.xmit CMD_PAGE_PROGRAM
        (D.step (D.onAssert s) CMD_PAGE_PROGRAM).2,
      Ev.xmit (addr / 65536 % 256) (D.step ((D.step (D.onAssert s)
        CMD_PAGE_PROGRAM).1) (addr / 65536 % 256)).2,
      Ev.xmit (addr / 256 % 256) (D.step ((D.step ((D.step (D.onAssert s)
        CMD_PAGE_PROGRAM).1) (addr / 65536 % 256)).1) (addr / 256 % 256)).2,
      Ev.xmit (addr % 256) (D.step ((D.step ((D.step ((D.step (D.onAssert s)
        CMD_PAGE_PROGRAM).1) (addr / 65536 % 256)).1) (addr / 256 % 256)).1)
        (addr % 256)).2] ++
      (spiWriteLoop D (buf.take siz) ((D.step ((D.step ((D.step ((D.step
        (D.onAssert s) CMD_PAGE_PROGRAM).1) (addr / 65536 % 256)).1)
        (addr / 256 % 256)).1) (addr % 256)).1)).2, rfl, ?_⟩
    intro e he
    rcases List.mem_append.mp he with he | he
    · simp only [List.mem_cons, List.not_mem_nil, or_false] at he
      rcases he with he | he | he | he <;> exact ⟨_, _, he⟩
    · exact spiWriteLoop_xmit D _ _ e he
  case _ σ D s addr =>
    exact ⟨[Ev.xmit CMD_SECTOR_ERASE (D.step (D.onAssert s) CMD_SECTOR_ERASE).2,
      Ev.xmit (addr / 65536 % 256) (D.step ((D.step (D.onAssert s)
        CMD_SECTOR_ERASE).1) (addr / 65536 % 256)).2,
      Ev.xmit (addr / 256 % 256) (D.step ((D.step ((D.step (D.onAssert s)
        CMD_SECTOR_ERASE).1) (addr / 65536 % 256)).1) (addr / 256 % 256)).2,
      Ev.xmit (addr % 256) (D.step ((D.step ((D.step ((D.step (D.onAssert s)
        CMD_SECTOR_ERASE).1) (addr / 65536 % 256)).1) (addr / 256 % 256)).1)
        (addr % 256)).2], rfl, by simp [isXmit]⟩
  case _ σ D s =>
    exact ⟨[Ev.xmit CMD_BULK_ERASE (D.step (D.onAssert s) CMD_BULK_ERASE).2],
      rfl, by simp [isXmit]⟩
  case _ σ D s =>
    exact ⟨[Ev.xmit CMD_DEEP_POWER_DOWN
        (D.step (D.onAssert s) CMD_DEEP_POWER_DOWN).2], rfl, by simp [isXmit]⟩
  case _ σ D s =>
    exact ⟨[Ev.xmit CMD_RELEASE_FROM_DEEP_POWER_DOWN
        (D.step (D.onAssert s) CMD_RELEASE_FROM_DEEP_POWER_DOWN).2],
      rfl, by simp [isXmit]⟩
  case _ σ D s addr lockreg =>
    exact ⟨[Ev.xmit CMD_WRITE_LOCK_REGISTER
        (D.step (D.onAssert s) CMD_WRITE_LOCK_REGISTER).2,
      Ev.xmit (addr / 65536 % 256) (D.step ((D.step (D.onAssert s)
        CMD_WRITE_LOCK_REGISTER).1) (addr / 65536 % 256)).2,
      Ev.xmit (addr / 256 % 256) (D.step ((D.step ((D.step (D.onAssert s)
        CMD_WRITE_LOCK_REGISTER).1) (addr / 65536 % 256)).1) (addr / 256 % 256)).2,
      Ev.xmit (addr % 256) (D.step ((D.step ((D.step ((D.step (D.onAssert s)
        CMD_WRITE_LOCK_REGISTER).1) (addr / 65536 % 256)).1) (addr / 256 % 256)).1)
        (addr % 256)).2,
      Ev.xmit lockreg (D.step ((D.step ((D.step ((D.step ((D.step (D.onAssert s)
        CMD_WRITE_LOCK_REGISTER).1) (addr / 65536 % 256)).1) (addr / 256 % 256)).1)
        (addr % 256)).1) lockreg).2], rfl, by simp [isXmit]⟩
  case _ σ D s addr =>
    exact ⟨[Ev.xmit CMD_READ_LOCK_REGISTER
        (D.step (D.onAssert s) CMD_READ_LOCK_REGISTER).2,
      Ev.xmit (addr / 65536 % 256) (D.step ((D.step (D.onAssert s)
        CMD_READ_LOCK_REGISTER).1) (addr / 65536 % 256)).2,
      Ev.xmit (addr / 256 % 256) (D.step ((D.step ((D.step (D.onAssert s)
        CMD_READ_LOCK_REGISTER).1) (addr / 65536 % 256)).1) (addr / 256 % 256)).2,
      Ev.xmit (addr % 256) (D.step ((D.step ((D.step ((D.step (D.onAssert s)
        CMD_READ_LOCK_REGISTER).1) (addr / 65536 % 256)).1) (addr / 256 % 256)).1)
        (addr % 256)).2,
      Ev.xmit 0 (m25px16_read_lock_register D s addr).2.1], rfl, by simp [isXmit]⟩

/-- A byte exchange the host drives with a dummy 0, i.e. a byte read
from the device. -/
def isDummyRead : Ev → Bool
  | Ev.xmit 0 _ => true
  | _ => false

theorem isDummyRead_read (d : Nat) : isDummyRead (Ev.xmit 0 d) = true := rfl

theorem isDummyRead_asrt : isDummyRead Ev.asrt = false := rfl

theorem isDummyRead_de : isDummyRead Ev.deassert = false := rfl

theorem isDummyRead_rdid (d : Nat) :
    isDummyRead (Ev.xmit CMD_READ_IDENTIFICATION d) = false := rfl

theorem filter_dummy_map (l : List Nat) :
    ((l.map (fun b => Ev.xmit 0 b)).filter isDummyRead).length = l.length := by
  induction l with
  | nil => rfl
  | cons b l ih =>
    simp only [List.map_cons, List.filter_cons]
    simp [isDummyRead_read, ih]

/-- C4: `read_identification` transmits the opcode and then reads
exactly `1 + 2 + 1 + cfd_length` bytes, where `cfd_length` is the 4th
byte received; the first three received bytes become `manufacturer`,
`memory_type` and `memory_capacity`, and the following `cfd_length`
bytes become `cfd_content` in order. -/
theorem read_identification_C4 {σ : Type} (D : Dev σ) (s : σ)
    (hlen : (m25p16_read_identification D s).2.1.cfd_length ≤ 16) :
    (m25p16_read_identification D s).2.2 =
      [Ev.asrt,
       Ev.xmit CMD_READ_IDENTIFICATION
         (D.step (D.onAssert s) CMD_READ_IDENTIFICATION).2,
       Ev.xmit 0 (m25p16_read_identification D s).2.1.manufacturer,
       Ev.xmit 0 (m25p16_read_identification D s).2.1.memory_type,
       Ev.xmit 0 (m25p16_read_identification D s).2.1.memory_capacity,
       Ev.xmit 0 (m25p16_read_identification D s).2.1.cfd_length] ++
      (m25p16_read_identification D s).2.1.cfd_content.map
        (fun b => Ev.xmit 0 b) ++ [Ev.deassert] ∧
    (m25p16_read_identification D s).2.1.cfd_content.length =
      (m25p16_read_identification D s).2.1.cfd_length ∧
    ((m25p16_read_identification D s).2.2.filter isDummyRead).length =
      1 + 2 + 1 + (m25p16_read_identification D s).2.1.cfd_length := by
  refine ⟨?_, ?_, ?_⟩
  · simp only [m25p16_read_identification]
    rw [spiReadLoop_trace]
  · simp only [m25p16_read_identification]
    rw [spiReadLoop_length]
  · simp only [m25p16_read_identification]
    rw [spiReadLoop_trace]
    simp only [List.filter_append, List.filter_cons, List.length_append]
    simp [isDummyRead_read, isDummyRead_asrt, isDummyRead_de, isDummyRead_rdid,
      filter_dummy_map, spiReadLoop_length]

/-- Transport double answering 16 (= 0x10, the datasheet CFD length)
to every byte exchange. -/
def constDev16 : Dev Unit := ⟨fun _ => (), fun _ _ => ((), 16), fun _ => ()⟩

/-- C4 witness: against a device reporting CFD length 16, the read
count is exactly `1 + 2 + 1 + 16`. -/
theorem read_identification_C4_witness :
    (m25p16_read_identification constDev16 ()).2.1.cfd_length ≤ 16 ∧
    ((m25p16_read_identification constDev16 ()).2.2.filter isDummyRead).length =
      1 + 2 + 1 + (m25p16_read_identification constDev16 ()).2.1.cfd_length ∧
    (m25p16_read_identification constDev16 ()).2.1.cfd_content.length =
      (m25p16_read_identification constDev16 ()).2.1.cfd_length :=
  ⟨by decide, (read_identification_C4 constDev16 () (by decide)).2.2,
   (read_identification_C4 constDev16 () (by decide)).2.1⟩

/-- Transport double that reports 17 (one more than the buffer's
declared capacity) as the 4th identification byte and 0 everywhere
else; its state counts the byte exchanges so far. -/
def cfdDev17 : Dev Nat :=
  ⟨fun n => n, fun n _ => (n + 1, if n = 4 then 17 else 0), fun n => n⟩

/-- C9 fails on the code: when the device reports `cfd_length = 17`,
the identification read loop runs 17 iterations and stores
`cfd_content[16]`, an index not below the array's declared capacity of
16 — the loop bound is the device-reported byte, not the buffer size. -/
theorem cfd_overrun_C9 :
    (m25p16_read_identification cfdDev17 0).2.1.cfd_length = 17 ∧
    (m25p16_read_identification cfdDev17 0).2.1.cfd_content.length = 17 ∧
    CFD_CONTENT_CAPACITY ∈
      List.range (m25p16_read_identification cfdDev17 0).2.1.cfd_content.length := by
  refine ⟨by decide, by decide, by decide⟩

/-- C3: for every page `p < page_count` and every byte buffer fitting
in a page, writing the page and reading it back against the
memory-backed transport double (starting from erased flash, program
clears bits 1 → 0, erase sets a sector to all ones) returns the buffer
unchanged. -/
theorem roundtrip_C3 (p fuel : Nat) (buf : List Nat)
    (hp : p < M25P16_PAGE_COUNT) (hb : ∀ b ∈ buf, b < 256)
    (hl : buf.length ≤ M25P16_PAGE_BYTE_SIZE) (hf : 1 ≤ fuel) :
    ∃ d1 tr1 d2 tr2,
      flash_page_write memDev fuel erasedDev p buf buf.length =
        some (d1, 0, tr1) ∧
      flash_page_read memDev d1 p buf.length = (d2, 0, buf, tr2) := by
  obtain ⟨k, rfl⟩ : ∃ k, fuel = k + 1 := ⟨fuel - 1, by omega⟩
  have hp8 : p < 8192 := hp
  obtain ⟨tr1, hw⟩ := memDev_flash_page_write (fun _ => 255) k p buf hp hl
  obtain ⟨s', tr2, hr⟩ := memDev_flash_page_read
    (pgMem (fun _ => 255) (256 * p) buf) p buf.length hp hl
  have hrt := pgMem_roundtrip buf (256 * p)
    (by have : buf.length ≤ 256 := hl; omega) hb
  rw [hrt] at hr
  exact ⟨⟨pgMem (fun _ => 255) (256 * p) buf, DevPhase.idle⟩, tr1, s', tr2, hw, hr⟩

/-- C3 witness: the spec's concrete scenario — page 0, buffer
`[0xAA, 0xBB]` — writes and reads back unchanged. -/
theorem roundtrip_C3_witness :
    ∃ d1 tr1 d2 tr2,
      flash_page_write memDev 1 erasedDev 0 [0xAA, 0xBB] 2 = some (d1, 0, tr1) ∧
      flash_page_read memDev d1 0 2 = (d2, 0, [0xAA, 0xBB], tr2) :=
  roundtrip_C3 0 1 [0xAA, 0xBB] (by decide) (by decide) (by decide) (by decide)
